import Mathlib

/-!
Verification model of `src/app.py` (free-search: a web-search aggregation
proxy).  The HTTP transport and the HTML tokenizer are black boxes (the spec
declares them out of scope), so a fetched-and-tokenized backend page is
represented by the ordered list of result blocks the CSS selectors of the
source would produce, and every network interaction is an explicit
environment value.  Characters of Python strings are modelled as Lean
`Char`s; all string work is done on `String.data` so that every definition
is executable and kernel-reducible.
-/

namespace FreeSearch

/-! ### Python / urllib string primitives -/

/-- Model of Python `s.startswith(pre)`. -/
def pyStartsWith (s pre : String) : Bool :=
  pre.data.isPrefixOf s.data

/-- Model of Python slicing `s[:n]` for a nonnegative `n`. -/
def pyTruncate (s : String) (n : Nat) : String :=
  String.mk (s.data.take n)

/-- Model of Python `needle in hay` (substring containment) on char lists. -/
def containsSub (needle : List Char) : List Char → Bool
  | [] => needle.isPrefixOf []
  | c :: rest => needle.isPrefixOf (c :: rest) || containsSub needle rest

/-- Model of Python `sub in s` for strings. -/
def strContains (s sub : String) : Bool :=
  containsSub sub.data s.data

/-- The part of `l` strictly before the first occurrence of `c`
(`l` itself when `c` does not occur). -/
def beforeChar (c : Char) : List Char → List Char
  | [] => []
  | x :: xs => if x = c then [] else x :: beforeChar c xs

/-- The part of `l` strictly after the first occurrence of `c`
(`[]` when `c` does not occur). -/
def afterChar (c : Char) : List Char → List Char
  | [] => []
  | x :: xs => if x = c then xs else afterChar c xs

/-- Model of `urllib.parse.urlparse(href).query`: the text after the first
`?` of the part before the first `#`. -/
def urlQuery (href : String) : String :=
  String.mk (afterChar '?' (beforeChar '#' href.data))

/-- Model of Python `qs.split("&")` (the field splitting of
`urllib.parse.parse_qs` with its default separator). -/
def splitAmp : List Char → List (List Char)
  | [] => [[]]
  | x :: xs =>
    if x = '&' then [] :: splitAmp xs
    else
      match splitAmp xs with
      | [] => [[x]]
      | f :: rest => (x :: f) :: rest

/-- Value of a hexadecimal digit, as accepted by `urllib.parse.unquote`. -/
def hexDigit (c : Char) : Option Nat :=
  if '0' ≤ c ∧ c ≤ '9' then some (c.toNat - '0'.toNat)
  else if 'a' ≤ c ∧ c ≤ 'f' then some (c.toNat - 'a'.toNat + 10)
  else if 'A' ≤ c ∧ c ≤ 'F' then some (c.toNat - 'A'.toNat + 10)
  else none

/-- Model of `urllib.parse.unquote_plus` at the character level: `+` becomes
a space and `%XX` (two hex digits) becomes the character with code `XX`;
malformed escapes are kept verbatim, as in CPython.  (Multi-byte UTF-8
escape sequences are modelled one byte per character.) -/
def unquotePlusChars : List Char → List Char
  | [] => []
  | c :: a :: b :: rest =>
    if c = '+' then ' ' :: unquotePlusChars (a :: b :: rest)
    else if c = '%' then
      match hexDigit a, hexDigit b with
      | some ha, some hb => Char.ofNat (16 * ha + hb) :: unquotePlusChars rest
      | _, _ => '%' :: unquotePlusChars (a :: b :: rest)
    else c :: unquotePlusChars (a :: b :: rest)
  | c :: rest =>
    if c = '+' then ' ' :: unquotePlusChars rest
    else if c = '%' then '%' :: unquotePlusChars rest
    else c :: unquotePlusChars rest

/-- One field of a query string, as `urllib.parse.parse_qsl` treats it with
`keep_blank_values=False`: split on the first `=`; a field without `=` or
with an empty raw value is dropped. -/
def fieldPair (f : List Char) : Option (List Char × List Char) :=
  if '=' ∈ f then
    let value := afterChar '=' f
    if value = [] then none else some (beforeChar '=' f, value)
  else none

/-- First decoded value bound to the key `uddg` among the query fields, or
`[]` when there is none: `parse_qs(qs).get("uddg", [""])[0]` at the
char-list level. -/
def uddgLookup : List (List Char) → List Char
  | [] => []
  | f :: rest =>
    match fieldPair f with
    | some p =>
      if unquotePlusChars p.1 = ("uddg" : String).data then unquotePlusChars p.2
      else uddgLookup rest
    | none => uddgLookup rest

/-- Model of `parse_qs(qs).get("uddg", [""])[0]` (src/app.py line 73-74). -/
def parseQsUddg (qs : String) : String :=
  String.mk (uddgLookup (splitAmp qs.data))

/-- Model of src/app.py lines 70-78: the `actual_url` computed from a
DuckDuckGo result anchor's `href` (unwrap the `uddg` redirect parameter when
the marker `uddg=` occurs in a non-empty href, else keep the raw href). -/
def uddgUnwrap (href : String) : String :=
  if href ≠ "" ∧ strContains href "uddg=" = true then
    parseQsUddg (urlQuery href)
  else href

/-! ### Data model (src/app.py lines 30-40) -/

/-- `SearchResult` pydantic model. -/
structure SearchResult where
  title : String
  url : String
  snippet : Option String := none
  date : Option String := none
  last_updated : Option String := none
deriving DecidableEq

/-- `SearchResponse` pydantic model. -/
structure SearchResponse where
  results : List SearchResult
  id : String
deriving DecidableEq

/-- An HTML element as the parsers see it: its stripped text
(`get_text(strip=True)`) and its `href` attribute (`get("href")`). -/
structure Elem where
  text : String
  href : Option String := none
deriving DecidableEq

/-- An element that may match one of the comma-separated snippet selectors:
its CSS classes and its stripped text. -/
structure SnipElem where
  classes : List String
  text : String
deriving DecidableEq

/-- A DuckDuckGo `.result` container: the `select_one(".result__a")` and
`select_one(".result__snippet")` outcomes (src/app.py lines 59-62). -/
structure DDGBlock where
  title_elem : Option Elem := none
  snippet_elem : Option Elem := none
deriving DecidableEq

/-- A Brave `[data-type='web']` container: the first anchor
(`select_one("a")`) and the descendant elements relevant to the snippet
selectors, in document order (src/app.py lines 109-111). -/
structure BraveBlock where
  anchor : Option Elem := none
  snippetElems : List SnipElem := []
deriving DecidableEq

/-- A Google `.g` container: `select_one("h3")`, `select_one("a")` and the
descendant elements relevant to the snippet selectors (src/app.py
lines 147-150). -/
structure GoogleBlock where
  heading : Option Elem := none
  link : Option Elem := none
  snippetElems : List SnipElem := []
deriving DecidableEq

/-- Model of `select_one(".c1, .c2")` on a container: the first descendant
element in document order whose class list matches either selector. -/
def selectSnippet (cls₁ cls₂ : String) (elems : List SnipElem) : Option SnipElem :=
  elems.find? (fun e => e.classes.contains cls₁ || e.classes.contains cls₂)

/-! ### Backend parsers (src/app.py lines 43-168)

Each loop body of the three parsers decides independently, per container,
whether to emit a candidate `SearchResult`; the surrounding loop appends
accepted candidates and breaks once `limit` of them are collected.  The
shared loop is `collectLoop`; the per-backend bodies are the `*Candidate`
functions. -/

/-- The shared accumulation loop of the three parsers: skip a container
whose body yields no candidate, append an accepted candidate, and stop as
soon as `limit` results are collected (`if len(results) >= limit: break`). -/
def collectLoop {β : Type} (limit : Nat) (f : β → Option SearchResult) :
    List β → List SearchResult → List SearchResult
  | [], acc => acc
  | b :: rest, acc =>
    match f b with
    | none => collectLoop limit f rest acc
    | some r =>
      let acc' := acc ++ [r]
      if limit ≤ acc'.length then acc' else collectLoop limit f rest acc'

/-- Loop body of `search_duckduckgo` (src/app.py lines 59-85): skip when the
title element is missing, unwrap the `uddg` redirect parameter, and drop
candidates whose final URL is empty or does not start with `http`. -/
def ddgCandidate (blk : DDGBlock) : Option SearchResult :=
  match blk.title_elem with
  | none => none
  | some t =>
    let title := t.text
    let href := t.href.getD ""
    let actual_url := uddgUnwrap href
    if actual_url = "" ∨ pyStartsWith actual_url "http" = false then none
    else
      let snippet := match blk.snippet_elem with
        | some s => s.text
        | none => ""
      some { title := title, url := actual_url, snippet := some snippet }

/-- Loop body of `search_brave` (src/app.py lines 109-123): skip when the
first anchor is missing, take the snippet from
`select_one(".snippet-description, .snippet-content")`, and drop candidates
whose href does not start with `http`. -/
def braveCandidate (blk : BraveBlock) : Option SearchResult :=
  match blk.anchor with
  | none => none
  | some t =>
    let title := t.text
    let href := t.href.getD ""
    let snippet := match selectSnippet "snippet-description" "snippet-content" blk.snippetElems with
      | some s => s.text
      | none => ""
    if pyStartsWith href "http" = false then none
    else some { title := title, url := href, snippet := some snippet }

/-- Loop body of `search_google` (src/app.py lines 147-162): skip when the
heading or the link is missing, take the snippet from
`select_one(".VwiC3b, .st")`, and drop candidates whose href does not start
with `http`. -/
def googleCandidate (blk : GoogleBlock) : Option SearchResult :=
  match blk.heading, blk.link with
  | some t, some l =>
    let title := t.text
    let href := l.href.getD ""
    let snippet := match selectSnippet "VwiC3b" "st" blk.snippetElems with
      | some s => s.text
      | none => ""
    if pyStartsWith href "http" = false then none
    else some { title := title, url := href, snippet := some snippet }
  | _, _ => none

/-- Pure part of `search_duckduckgo`: the parse of a fetched result page. -/
def duckduckgoParse (blocks : List DDGBlock) (limit : Nat) : List SearchResult :=
  collectLoop limit ddgCandidate blocks []

/-- Pure part of `search_brave`: the parse of a fetched result page. -/
def braveParse (blocks : List BraveBlock) (limit : Nat) : List SearchResult :=
  collectLoop limit braveCandidate blocks []

/-- Pure part of `search_google`: the parse of a fetched result page. -/
def googleParse (blocks : List GoogleBlock) (limit : Nat) : List SearchResult :=
  collectLoop limit googleCandidate blocks []

/-! ### Network environment and backend calls -/

/-- Outcome of fetching and tokenizing each backend's result page for the
current query: either the exception the fetch raised
(`httpx` errors, `raise_for_status`) or the ordered result containers of
the page. -/
structure SearchEnv where
  ddg : Except String (List DDGBlock)
  brave : Except String (List BraveBlock)
  google : Except String (List GoogleBlock)

/-- `search_duckduckgo(query, limit)` as the orchestrator sees it: an
exception or the parsed results. -/
def search_duckduckgo (query : String) (limit : Nat) (env : SearchEnv) :
    Except String (List SearchResult) :=
  match env.ddg with
  | .error e => .error e
  | .ok blocks => .ok (duckduckgoParse blocks limit)

/-- `search_brave(query, limit)` as the orchestrator sees it. -/
def search_brave (query : String) (limit : Nat) (env : SearchEnv) :
    Except String (List SearchResult) :=
  match env.brave with
  | .error e => .error e
  | .ok blocks => .ok (braveParse blocks limit)

/-- `search_google(query, limit)` as the orchestrator sees it. -/
def search_google (query : String) (limit : Nat) (env : SearchEnv) :
    Except String (List SearchResult) :=
  match env.google with
  | .error e => .error e
  | .ok blocks => .ok (googleParse blocks limit)

/-- The three backends, in the fixed priority order of `search_web`. -/
inductive BackendName
  | ddg
  | brave
  | google
deriving DecidableEq

/-- A backend attempt that makes the orchestrator move on: it raised an
exception or parsed zero results. -/
def backendFailed (e : Except String (List SearchResult)) : Bool :=
  match e with
  | .error _ => true
  | .ok r => r.isEmpty

/-- Tail of `search_web` from the Google attempt on (src/app.py
lines 198-206): `results` is the value of the Python local at this point;
the returned trace extends `tr` with every backend invoked from here. -/
def searchWebGoogle (query : String) (limit : Nat) (env : SearchEnv)
    (results : List SearchResult) (tr : List BackendName) :
    List SearchResult × List BackendName :=
  match search_google query limit env with
  | .ok r => (r, tr ++ [.google])
  | .error _ => (results, tr ++ [.google])

/-- Tail of `search_web` from the Brave attempt on (src/app.py
lines 190-206). -/
def searchWebBrave (query : String) (limit : Nat) (env : SearchEnv)
    (results : List SearchResult) (tr : List BackendName) :
    List SearchResult × List BackendName :=
  match search_brave query limit env with
  | .ok r =>
    if r.isEmpty then searchWebGoogle query limit env r (tr ++ [.brave])
    else (r, tr ++ [.brave])
  | .error _ => searchWebGoogle query limit env results (tr ++ [.brave])

/-- `search_web` (src/app.py lines 171-206): try DuckDuckGo, then Brave,
then Google, returning the first non-empty parse; exceptions are swallowed
and `[]` is returned when every backend fails.  The second component is the
trace of backends actually invoked.  `language` and `country` are accepted
but unused, as in the source. -/
def search_web (query : String) (limit : Nat)
    (language country : Option String) (env : SearchEnv) :
    List SearchResult × List BackendName :=
  match search_duckduckgo query limit env with
  | .ok r =>
    if r.isEmpty then searchWebBrave query limit env r [.ddg]
    else (r, [.ddg])
  | .error _ => searchWebBrave query limit env [] [.ddg]

/-! ### Content extraction and enrichment (src/app.py lines 209-263) -/

/-- Environment of the enrichment stage: per URL, the outcome of the page
fetch (`httpx` GET + `raise_for_status`), and per fetched body, the outcome
of `trafilatura.extract` (which returns `None` or a string, and may itself
raise — both are caught by the source's `except`). -/
structure PageEnv where
  page : String → Except String String
  extract : String → String → Except String (Option String)

/-- `fetch_and_extract(url)` (src/app.py lines 209-227) with the configured
character budget `MAX_PAGE_CHARS` as an explicit parameter: any exception
yields `None`; an empty extraction yields `None`; otherwise the extracted
text truncated to the budget. -/
def fetch_and_extract (budget : Nat) (penv : PageEnv) (url : String) :
    Option String :=
  match penv.page url with
  | .error _ => none
  | .ok body =>
    match penv.extract body url with
    | .error _ => none
    | .ok none => none
    | .ok (some extracted) =>
      if extracted = "" then none else some (pyTruncate extracted budget)

/-- One iteration of the enrichment loop (src/app.py lines 257-261):
`if text: item.snippet = text`. -/
def enrichItem (budget : Nat) (penv : PageEnv) (item : SearchResult) :
    SearchResult :=
  match fetch_and_extract budget penv item.url with
  | some t => if t = "" then item else { item with snippet := some t }
  | none => item

/-- The enrichment loop of `search_endpoint` (src/app.py lines 256-261). -/
def enrichResults (budget : Nat) (penv : PageEnv)
    (results : List SearchResult) : List SearchResult :=
  results.map (enrichItem budget penv)

/-- `limit = max_results or k` (src/app.py line 246), with Python's `or`
treating `None` and `0` as falsy. -/
def effectiveLimit (k : Nat) (max_results : Option Nat) : Nat :=
  match max_results with
  | some m => if m = 0 then k else m
  | none => k

/-- Outcome of a request to `/search`: a JSON response or an
`HTTPException` with its status code and detail. -/
inductive EndpointOutcome
  | ok : SearchResponse → EndpointOutcome
  | httpError : Nat → String → EndpointOutcome
deriving DecidableEq

/-- The `results` list of an endpoint outcome, discarding the opaque
request id; `none` for an error response. -/
def outcomeResults : EndpointOutcome → Option (List SearchResult)
  | .ok resp => some resp.results
  | .httpError _ _ => none

/-- `search_endpoint` (src/app.py lines 230-269) on already-validated query
parameters; `uuid` is the request-scoped identifier generated by
`uuid.uuid4()`. -/
def search_endpoint (q : String) (k : Nat) (language country : Option String)
    (max_results : Option Nat) (budget : Nat) (env : SearchEnv)
    (penv : PageEnv) (uuid : String) : EndpointOutcome :=
  let limit := effectiveLimit k max_results
  let results := (search_web q limit language country env).1
  if results.isEmpty then
    .httpError 404 ("No search results found for query: " ++ q ++ ". Try a different query.")
  else
    .ok { results := enrichResults budget penv results, id := uuid }

/-! ### Concrete fixtures (mocked backend pages and page environments) -/

/-- A well-formed DuckDuckGo result block with a direct absolute href. -/
def ddgBlockW : DDGBlock :=
  { title_elem := some { text := "Example Domain", href := some "https://example.org/" },
    snippet_elem := some { text := "An example snippet" } }

/-- The result `ddgBlockW` parses to. -/
def resW : SearchResult :=
  { title := "Example Domain", url := "https://example.org/",
    snippet := some "An example snippet" }

/-- Environment where DuckDuckGo succeeds and the other backends are dead. -/
def envDdgOk : SearchEnv :=
  { ddg := .ok [ddgBlockW], brave := .error "brave down", google := .error "google down" }

/-- Environment where every backend fails (exception or empty parse). -/
def envAllFail : SearchEnv :=
  { ddg := .error "ddg down", brave := .ok [], google := .error "google down" }

/-- Page environment where every content fetch fails. -/
def penvDown : PageEnv :=
  { page := fun _ => .error "offline", extract := fun _ _ => .ok none }

/-- Page environment where every page extracts to `"hello world"`. -/
def penvHello : PageEnv :=
  { page := fun _ => .ok "<html>", extract := fun _ _ => .ok (some "hello world") }

/-- First well-formed block of the three-block page of C7. -/
def ddgB1 : DDGBlock :=
  { title_elem := some { text := "First", href := some "https://one.example/" },
    snippet_elem := some { text := "s1" } }

/-- Second block of the three-block page of C7: no title element. -/
def ddgB2 : DDGBlock :=
  { title_elem := none, snippet_elem := some { text := "s2" } }

/-- Third well-formed block of the three-block page of C7. -/
def ddgB3 : DDGBlock :=
  { title_elem := some { text := "Third", href := some "https://three.example/" } }

/-- A DuckDuckGo block whose href contains the marker `uddg=` (inside
`xuddg=`) but whose query string has no `uddg` parameter. -/
def ddgCexBlock : DDGBlock :=
  { title_elem := some { text := "Example", href := some "https://example.com/xuddg=target" } }

/-- A Brave block whose first matching snippet element (the
`snippet-description` one) has empty text while a later `snippet-content`
element has non-empty text. -/
def braveCexBlock : BraveBlock :=
  { anchor := some { text := "Brave Title", href := some "https://brave.example/" },
    snippetElems := [{ classes := ["snippet-description"], text := "" },
                     { classes := ["snippet-content"], text := "Result text" }] }

/-- What one step of the enrichment pipeline is allowed to do to a result:
`url`, `title`, `date` and `last_updated` are untouched; the snippet is
replaced exactly when `fetch_and_extract` succeeds on the result's URL and
kept otherwise. -/
def enrichFrame (budget : Nat) (penv : PageEnv) (orig new : SearchResult) : Prop :=
  new.url = orig.url ∧ new.title = orig.title ∧ new.date = orig.date ∧
  new.last_updated = orig.last_updated ∧
  (∀ t, fetch_and_extract budget penv orig.url = some t → new.snippet = some t) ∧
  (fetch_and_extract budget penv orig.url = none → new.snippet = orig.snippet)

/-! ### Helper lemmas about the shared parser loop -/

theorem collectLoop_cons_none {β : Type} {f : β → Option SearchResult} {b : β}
    (limit : Nat) (h : f b = none) (rest : List β) (acc : List SearchResult) :
    collectLoop limit f (b :: rest) acc = collectLoop limit f rest acc := by
  simp [collectLoop, h]

theorem collectLoop_cons_some {β : Type} {f : β → Option SearchResult} {b : β}
    {r : SearchResult} (limit : Nat) (h : f b = some r) (rest : List β)
    (acc : List SearchResult) :
    collectLoop limit f (b :: rest) acc =
      if limit ≤ (acc ++ [r]).length then acc ++ [r]
      else collectLoop limit f rest (acc ++ [r]) := by
  simp [collectLoop, h]

theorem collectLoop_length {β : Type} (limit : Nat) (f : β → Option SearchResult)
    (blocks : List β) :
    ∀ acc : List SearchResult, acc.length < limit →
      (collectLoop limit f blocks acc).length ≤ limit := by
  induction blocks with
  | nil => intro acc h; exact Nat.le_of_lt h
  | cons b rest ih =>
    intro acc h
    cases hb : f b with
    | none => rw [collectLoop_cons_none limit hb]; exact ih acc h
    | some r =>
      rw [collectLoop_cons_some limit hb]
      by_cases hl : limit ≤ (acc ++ [r]).length
      · rw [if_pos hl]
        simp only [List.length_append, List.length_cons, List.length_nil]
        omega
      · rw [if_neg hl]
        exact ih _ (by omega)

theorem collectLoop_mem {β : Type} (limit : Nat) (f : β → Option SearchResult)
    (P : SearchResult → Prop) (hf : ∀ b r, f b = some r → P r) (blocks : List β) :
    ∀ acc : List SearchResult, (∀ r ∈ acc, P r) →
      ∀ r ∈ collectLoop limit f blocks acc, P r := by
  induction blocks with
  | nil => intro acc hacc; exact hacc
  | cons b rest ih =>
    intro acc hacc r hr
    cases hb : f b with
    | none =>
      rw [collectLoop_cons_none limit hb] at hr
      exact ih acc hacc r hr
    | some s =>
      rw [collectLoop_cons_some limit hb] at hr
      have hacc' : ∀ x ∈ acc ++ [s], P x := by
        intro x hx
        rcases List.mem_append.1 hx with h | h
        · exact hacc x h
        · rw [List.mem_singleton.1 h]
          exact hf b s hb
      by_cases hl : limit ≤ (acc ++ [s]).length
      · rw [if_pos hl] at hr
        exact hacc' r hr
      · rw [if_neg hl] at hr
        exact ih _ hacc' r hr

theorem collectLoop_skip {β : Type} (limit : Nat) (f : β → Option SearchResult)
    {b : β} (hb : f b = none) (pre post : List β) :
    ∀ acc : List SearchResult,
      collectLoop limit f (pre ++ b :: post) acc = collectLoop limit f (pre ++ post) acc := by
  induction pre with
  | nil =>
    intro acc
    simpa using collectLoop_cons_none limit hb post acc
  | cons p ps ih =>
    intro acc
    rw [List.cons_append, List.cons_append]
    cases hp : f p with
    | none => rw [collectLoop_cons_none limit hp, collectLoop_cons_none limit hp]; exact ih acc
    | some r =>
      rw [collectLoop_cons_some limit hp, collectLoop_cons_some limit hp]
      by_cases hl : limit ≤ (acc ++ [r]).length
      · rw [if_pos hl, if_pos hl]
      · rw [if_neg hl, if_neg hl]; exact ih _

/-! ### Helper lemmas about the per-backend candidates -/

theorem pyStartsWith_http_ne_empty {u : String} (h : pyStartsWith u "http" = true) :
    u ≠ "" := by
  intro he
  rw [he] at h
  exact absurd h (by decide)

theorem ddgCandidate_url {blk : DDGBlock} {r : SearchResult}
    (h : ddgCandidate blk = some r) :
    r.url ≠ "" ∧ pyStartsWith r.url "http" = true := by
  unfold ddgCandidate at h
  cases ht : blk.title_elem with
  | none => rw [ht] at h; cases h
  | some t =>
    rw [ht] at h
    simp only at h
    split at h
    · cases h
    · rename_i hg
      push_neg at hg
      cases h
      exact ⟨hg.1, eq_true_of_ne_false hg.2⟩

theorem braveCandidate_url {blk : BraveBlock} {r : SearchResult}
    (h : braveCandidate blk = some r) :
    r.url ≠ "" ∧ pyStartsWith r.url "http" = true := by
  unfold braveCandidate at h
  cases ht : blk.anchor with
  | none => rw [ht] at h; cases h
  | some t =>
    rw [ht] at h
    simp only at h
    split at h
    · cases h
    · rename_i hg
      cases h
      have hs : pyStartsWith (t.href.getD "") "http" = true :=
        eq_true_of_ne_false (fun hf => hg hf)
      exact ⟨pyStartsWith_http_ne_empty hs, hs⟩

theorem googleCandidate_url {blk : GoogleBlock} {r : SearchResult}
    (h : googleCandidate blk = some r) :
    r.url ≠ "" ∧ pyStartsWith r.url "http" = true := by
  unfold googleCandidate at h
  cases hh : blk.heading with
  | none => rw [hh] at h; cases h
  | some t =>
    cases hl : blk.link with
    | none => rw [hh, hl] at h; cases h
    | some l =>
      rw [hh, hl] at h
      simp only at h
      split at h
      · cases h
      · rename_i hg
        cases h
        have hs : pyStartsWith (l.href.getD "") "http" = true :=
          eq_true_of_ne_false (fun hf => hg hf)
        exact ⟨pyStartsWith_http_ne_empty hs, hs⟩

/-! ### Helper lemmas about the fallback orchestrator -/

theorem searchWebGoogle_snd (q : String) (limit : Nat) (env : SearchEnv)
    (parked : List SearchResult) (tr : List BackendName) :
    (searchWebGoogle q limit env parked tr).2 = tr ++ [.google] := by
  unfold searchWebGoogle search_google
  cases env.google <;> rfl

theorem searchWebBrave_snd (q : String) (limit : Nat) (env : SearchEnv)
    (parked : List SearchResult) (tr : List BackendName) :
    ∃ tl, (searchWebBrave q limit env parked tr).2 = (tr ++ [.brave]) ++ tl := by
  unfold searchWebBrave search_brave
  cases hb : env.brave with
  | error e =>
    exact ⟨[.google], by rw [searchWebGoogle_snd]⟩
  | ok blocks =>
    dsimp only
    by_cases he : (braveParse blocks limit).isEmpty
    · rw [if_pos he]
      exact ⟨[.google], by rw [searchWebGoogle_snd]⟩
    · rw [if_neg he]
      exact ⟨[], by simp⟩

theorem searchWebGoogle_fst (q : String) (limit : Nat) (env : SearchEnv)
    (parked : List SearchResult) (tr : List BackendName) :
    (searchWebGoogle q limit env parked tr).1 = parked ∨
      ∃ blocks, env.google = .ok blocks ∧
        (searchWebGoogle q limit env parked tr).1 = googleParse blocks limit := by
  unfold searchWebGoogle search_google
  cases env.google with
  | error e => exact Or.inl rfl
  | ok blocks => exact Or.inr ⟨blocks, rfl, rfl⟩

theorem searchWebBrave_fst (q : String) (limit : Nat) (env : SearchEnv)
    (parked : List SearchResult) (tr : List BackendName) :
    (searchWebBrave q limit env parked tr).1 = parked ∨
      (∃ blocks, env.brave = .ok blocks ∧
        (searchWebBrave q limit env parked tr).1 = braveParse blocks limit) ∨
      (∃ blocks, env.google = .ok blocks ∧
        (searchWebBrave q limit env parked tr).1 = googleParse blocks limit) := by
  unfold searchWebBrave search_brave
  cases hb : env.brave with
  | error e =>
    rcases searchWebGoogle_fst q limit env parked (tr ++ [.brave]) with h | ⟨blocks, hg, h⟩
    · exact Or.inl h
    · exact Or.inr (Or.inr ⟨blocks, hg, h⟩)
  | ok blocks =>
    dsimp only
    by_cases he : (braveParse blocks limit).isEmpty
    · rw [if_pos he]
      rcases searchWebGoogle_fst q limit env (braveParse blocks limit) (tr ++ [.brave]) with h | ⟨bl, hg, h⟩
      · exact Or.inr (Or.inl ⟨blocks, rfl, h⟩)
      · exact Or.inr (Or.inr ⟨bl, hg, h⟩)
    · rw [if_neg he]
      exact Or.inr (Or.inl ⟨blocks, rfl, rfl⟩)

theorem search_web_fst (q : String) (limit : Nat) (language country : Option String)
    (env : SearchEnv) :
    (search_web q limit language country env).1 = [] ∨
      (∃ blocks, env.ddg = .ok blocks ∧
        (search_web q limit language country env).1 = duckduckgoParse blocks limit) ∨
      (∃ blocks, env.brave = .ok blocks ∧
        (search_web q limit language country env).1 = braveParse blocks limit) ∨
      (∃ blocks, env.google = .ok blocks ∧
        (search_web q limit language country env).1 = googleParse blocks limit) := by
  unfold search_web search_duckduckgo
  cases hd : env.ddg with
  | error e =>
    rcases searchWebBrave_fst q limit env [] [.ddg] with h | h | h
    · exact Or.inl h
    · exact Or.inr (Or.inr (Or.inl h))
    · exact Or.inr (Or.inr (Or.inr h))
  | ok blocks =>
    dsimp only
    by_cases he : (duckduckgoParse blocks limit).isEmpty
    · rw [if_pos he]
      rcases searchWebBrave_fst q limit env (duckduckgoParse blocks limit) [.ddg] with h | h | h
      · exact Or.inr (Or.inl ⟨blocks, rfl, h⟩)
      · exact Or.inr (Or.inr (Or.inl h))
      · exact Or.inr (Or.inr (Or.inr h))
    · rw [if_neg he]
      exact Or.inr (Or.inl ⟨blocks, rfl, rfl⟩)

theorem searchWebGoogle_nil_iff (q : String) (limit : Nat) (env : SearchEnv)
    (tr : List BackendName) :
    ((searchWebGoogle q limit env [] tr).1 = [] ↔
      backendFailed (search_google q limit env) = true) := by
  unfold searchWebGoogle backendFailed
  cases hg : search_google q limit env with
  | error e => simp
  | ok r => simp [List.isEmpty_iff]

theorem searchWebBrave_nil_iff (q : String) (limit : Nat) (env : SearchEnv)
    (tr : List BackendName) :
    ((searchWebBrave q limit env [] tr).1 = [] ↔
      backendFailed (search_brave q limit env) = true ∧
        backendFailed (search_google q limit env) = true) := by
  unfold searchWebBrave
  cases hb : search_brave q limit env with
  | error e =>
    simp [backendFailed, hb, searchWebGoogle_nil_iff]
  | ok r =>
    dsimp only
    by_cases he : r.isEmpty
    · rw [if_pos he]
      have hr : r = [] := List.isEmpty_iff.1 he
      subst hr
      simp [backendFailed, hb, searchWebGoogle_nil_iff, he]
    · rw [if_neg he]
      have hr : r ≠ [] := by
        intro h; exact he (by simp [h])
      simp [backendFailed, hb, he, hr]

theorem search_web_nil_iff (q : String) (limit : Nat)
    (language country : Option String) (env : SearchEnv) :
    ((search_web q limit language country env).1 = [] ↔
      backendFailed (search_duckduckgo q limit env) = true ∧
        backendFailed (search_brave q limit env) = true ∧
        backendFailed (search_google q limit env) = true) := by
  unfold search_web
  cases hd : search_duckduckgo q limit env with
  | error e =>
    simp [backendFailed, hd, searchWebBrave_nil_iff]
  | ok r =>
    dsimp only
    by_cases he : r.isEmpty
    · rw [if_pos he]
      have hr : r = [] := List.isEmpty_iff.1 he
      subst hr
      simp [backendFailed, hd, searchWebBrave_nil_iff, he]
    · rw [if_neg he]
      have hr : r ≠ [] := by
        intro h; exact he (by simp [h])
      simp [backendFailed, hd, he, hr]

/-! ### Helper lemmas about extraction and enrichment -/

theorem stringMk_ne_empty {l : List Char} (h : l ≠ []) : String.mk l ≠ "" := by
  intro he
  apply h
  have hd := congrArg String.data he
  simpa using hd

theorem pyTruncate_ne_empty {s : String} {n : Nat} (hn : 1 ≤ n) (hs : s ≠ "") :
    pyTruncate s n ≠ "" := by
  cases s with
  | mk data =>
    cases data with
    | nil => exact absurd rfl hs
    | cons c cs =>
      cases n with
      | zero => exact absurd hn (by omega)
      | succ m =>
        apply stringMk_ne_empty
        simp [List.take]

theorem fetch_and_extract_length {budget : Nat} {penv : PageEnv} {url t : String}
    (h : fetch_and_extract budget penv url = some t) : t.length ≤ budget := by
  unfold fetch_and_extract at h
  cases hp : penv.page url with
  | error e => rw [hp] at h; cases h
  | ok body =>
    rw [hp] at h
    dsimp only at h
    cases hx : penv.extract body url with
    | error e => rw [hx] at h; cases h
    | ok o =>
      rw [hx] at h
      cases o with
      | none => cases h
      | some e =>
        simp only at h
        split at h
        · cases h
        · injection h with h
          subst h
          simp [pyTruncate, String.length_mk, List.length_take]

theorem fetch_and_extract_ne_empty {budget : Nat} {penv : PageEnv} {url t : String}
    (hb : 1 ≤ budget) (h : fetch_and_extract budget penv url = some t) : t ≠ "" := by
  unfold fetch_and_extract at h
  cases hp : penv.page url with
  | error e => rw [hp] at h; cases h
  | ok body =>
    rw [hp] at h
    dsimp only at h
    cases hx : penv.extract body url with
    | error e => rw [hx] at h; cases h
    | ok o =>
      rw [hx] at h
      cases o with
      | none => cases h
      | some e =>
        simp only at h
        split at h
        · cases h
        · rename_i hne
          injection h with h
          subst h
          exact pyTruncate_ne_empty hb hne

theorem enrichItem_fields (budget : Nat) (penv : PageEnv) (item : SearchResult) :
    (enrichItem budget penv item).url = item.url ∧
    (enrichItem budget penv item).title = item.title ∧
    (enrichItem budget penv item).date = item.date ∧
    (enrichItem budget penv item).last_updated = item.last_updated := by
  unfold enrichItem
  cases hf : fetch_and_extract budget penv item.url with
  | none => exact ⟨rfl, rfl, rfl, rfl⟩
  | some t =>
    dsimp only
    by_cases ht : t = ""
    · rw [if_pos ht]; exact ⟨rfl, rfl, rfl, rfl⟩
    · rw [if_neg ht]; exact ⟨rfl, rfl, rfl, rfl⟩

theorem enrichItem_snippet_some {budget : Nat} {penv : PageEnv} {item : SearchResult}
    {t : String} (hb : 1 ≤ budget)
    (h : fetch_and_extract budget penv item.url = some t) :
    (enrichItem budget penv item).snippet = some t := by
  unfold enrichItem
  rw [h]
  dsimp only
  rw [if_neg (fetch_and_extract_ne_empty hb h)]

theorem enrichItem_snippet_none {budget : Nat} {penv : PageEnv} {item : SearchResult}
    (h : fetch_and_extract budget penv item.url = none) :
    (enrichItem budget penv item).snippet = item.snippet := by
  unfold enrichItem
  rw [h]

theorem forall₂_map_self {α β : Type} (R : α → β → Prop) (f : α → β)
    (l : List α) (h : ∀ a ∈ l, R a (f a)) : List.Forall₂ R l (l.map f) := by
  induction l with
  | nil => exact List.Forall₂.nil
  | cons x xs ih =>
    exact List.Forall₂.cons (h x (by simp)) (ih (fun a ha => h a (by simp [ha])))

/-! ### Helper lemmas about the urllib model -/

theorem stringMk_data (s : String) : String.mk s.data = s := by
  cases s
  rfl

theorem beforeChar_eq_self {c : Char} {l : List Char} (h : ∀ x ∈ l, x ≠ c) :
    beforeChar c l = l := by
  induction l with
  | nil => rfl
  | cons x xs ih =>
    simp only [beforeChar]
    rw [if_neg (h x (by simp))]
    rw [ih (fun y hy => h y (by simp [hy]))]

theorem beforeChar_append {c : Char} {p rest : List Char} (h : ∀ x ∈ p, x ≠ c) :
    beforeChar c (p ++ c :: rest) = p := by
  induction p with
  | nil => simp [beforeChar]
  | cons x xs ih =>
    simp only [List.cons_append, beforeChar]
    rw [if_neg (h x (by simp))]
    show x :: beforeChar c (xs ++ c :: rest) = x :: xs
    rw [ih (fun y hy => h y (by simp [hy]))]

theorem afterChar_append {c : Char} {p rest : List Char} (h : ∀ x ∈ p, x ≠ c) :
    afterChar c (p ++ c :: rest) = rest := by
  induction p with
  | nil => simp [afterChar]
  | cons x xs ih =>
    simp only [List.cons_append, afterChar]
    rw [if_neg (h x (by simp))]
    exact ih (fun y hy => h y (by simp [hy]))

theorem splitAmp_no_amp {l : List Char} (h : ∀ x ∈ l, x ≠ '&') :
    splitAmp l = [l] := by
  induction l with
  | nil => rfl
  | cons x xs ih =>
    simp only [splitAmp]
    rw [if_neg (h x (by simp))]
    rw [ih (fun y hy => h y (by simp [hy]))]

theorem unquote_id {l : List Char} (h : ∀ x ∈ l, x ≠ '%' ∧ x ≠ '+') :
    unquotePlusChars l = l := by
  induction l using unquotePlusChars.induct <;> simp_all [unquotePlusChars]

theorem isPrefixOf_append_self (l m : List Char) : l.isPrefixOf (l ++ m) = true := by
  induction l with
  | nil => simp [List.isPrefixOf]
  | cons c cs ih => simp [List.isPrefixOf, ih]

theorem containsSub_of_isPrefixOf {n hay : List Char} (h : n.isPrefixOf hay = true) :
    containsSub n hay = true := by
  cases hay with
  | nil => simpa [containsSub] using h
  | cons c rest => simp [containsSub, h]

theorem containsSub_append_right {n : List Char} (x : List Char) {y : List Char}
    (h : containsSub n y = true) : containsSub n (x ++ y) = true := by
  induction x with
  | nil => simpa
  | cons c cs ih => simp [containsSub, ih]

theorem uddg_unwrap_target {pre target : String}
    (hpre : ∀ c ∈ pre.data, c ≠ '?' ∧ c ≠ '#')
    (htar : ∀ c ∈ target.data, c ≠ '&' ∧ c ≠ '#' ∧ c ≠ '%' ∧ c ≠ '+')
    (hne : target ≠ "") :
    uddgUnwrap (pre ++ "?uddg=" ++ target) = target := by
  have hdata : (pre ++ "?uddg=" ++ target).data
      = pre.data ++ '?' :: (("uddg=" : String).data ++ target.data) := by
    rw [String.data_append, String.data_append]
    rw [show ("?uddg=" : String).data = '?' :: ("uddg=" : String).data from rfl]
    simp
  have htardata : target.data ≠ [] := by
    intro h0
    apply hne
    rw [← stringMk_data target, h0]
  have hfne : (pre ++ "?uddg=" ++ target) ≠ "" := by
    intro h0
    have hd := congrArg String.data h0
    rw [hdata] at hd
    simp at hd
  have hcontains : strContains (pre ++ "?uddg=" ++ target) "uddg=" = true := by
    unfold strContains
    rw [hdata, List.append_cons]
    exact containsSub_append_right _
      (containsSub_of_isPrefixOf (isPrefixOf_append_self _ _))
  have hquery : urlQuery (pre ++ "?uddg=" ++ target)
      = String.mk (("uddg=" : String).data ++ target.data) := by
    unfold urlQuery
    rw [hdata]
    rw [beforeChar_eq_self ?nohash]
    · rw [afterChar_append (fun x hx => (hpre x hx).1)]
    case nohash =>
      intro x hx
      rcases List.mem_append.1 hx with hx | hx
      · exact (hpre x hx).2
      · rcases List.mem_cons.1 hx with rfl | hx
        · decide
        · rcases List.mem_append.1 hx with hx | hx
          · have hlit : ∀ y ∈ ("uddg=" : String).data, y ≠ '#' := by decide
            exact hlit x hx
          · exact (htar x hx).2.1
  have hfieldsplit : ("uddg=" : String).data ++ target.data
      = ("uddg" : String).data ++ '=' :: target.data := by
    rw [show ("uddg=" : String).data = ("uddg" : String).data ++ ['='] from rfl]
    simp
  have hfield : fieldPair (("uddg=" : String).data ++ target.data)
      = some (("uddg" : String).data, target.data) := by
    unfold fieldPair
    rw [if_pos ?hmem]
    · rw [hfieldsplit, afterChar_append (by decide)]
      rw [if_neg htardata]
      rw [beforeChar_append (by decide)]
    case hmem =>
      exact List.mem_append.2 (Or.inl (by decide))
  unfold uddgUnwrap
  rw [if_pos ⟨hfne, hcontains⟩]
  unfold parseQsUddg
  rw [hquery]
  rw [show (String.mk (("uddg=" : String).data ++ target.data)).data
      = ("uddg=" : String).data ++ target.data from rfl]
  rw [splitAmp_no_amp ?noamp]
  · unfold uddgLookup
    rw [hfield]
    dsimp only
    rw [if_pos (by decide)]
    rw [unquote_id (fun x hx => ⟨(htar x hx).2.2.1, (htar x hx).2.2.2⟩)]
  case noamp =>
    intro x hx
    rcases List.mem_append.1 hx with hx | hx
    · exact (by decide : ∀ y ∈ ("uddg=" : String).data, y ≠ '&') x hx
    · exact (htar x hx).1

theorem searchWebBrave_ok {q : String} {limit : Nat} {env : SearchEnv}
    {r : List SearchResult} (parked : List SearchResult) (tr : List BackendName)
    (hb : search_brave q limit env = .ok r) (hr : r ≠ []) :
    searchWebBrave q limit env parked tr = (r, tr ++ [.brave]) := by
  unfold searchWebBrave
  rw [hb]
  dsimp only
  rw [if_neg (fun h => hr (List.isEmpty_iff.1 h))]

theorem searchWebBrave_failed {q : String} {limit : Nat} {env : SearchEnv}
    {tr : List BackendName}
    (hbf : backendFailed (search_brave q limit env) = true) :
    searchWebBrave q limit env [] tr = searchWebGoogle q limit env [] (tr ++ [.brave]) := by
  unfold searchWebBrave
  cases hb : search_brave q limit env with
  | error e => rfl
  | ok r =>
    rw [hb] at hbf
    simp only [backendFailed] at hbf
    dsimp only
    rw [if_pos hbf, List.isEmpty_iff.1 hbf]

theorem search_web_ddg_failed (q : String) (limit : Nat)
    (language country : Option String) (env : SearchEnv)
    (hdf : backendFailed (search_duckduckgo q limit env) = true) :
    search_web q limit language country env = searchWebBrave q limit env [] [.ddg] := by
  unfold search_web
  cases hd : search_duckduckgo q limit env with
  | error e => rfl
  | ok r =>
    rw [hd] at hdf
    simp only [backendFailed] at hdf
    dsimp only
    rw [if_pos hdf, List.isEmpty_iff.1 hdf]

/-! ### The claims -/

/-- C1: for every query and limit, the fallback orchestrator tries the
backends in the fixed priority order DuckDuckGo, Brave, Google, and as soon
as one backend's parse yields one or more results it returns that backend's
result list immediately; the returned invocation trace stops at that
backend, so no later backend's fetch or parser is invoked. -/
theorem search_web_priority_short_circuit (q : String) (limit : Nat)
    (language country : Option String) (env : SearchEnv) :
    (∀ r, search_duckduckgo q limit env = .ok r → r ≠ [] →
      search_web q limit language country env = (r, [.ddg])) ∧
    (∀ r, backendFailed (search_duckduckgo q limit env) = true →
      search_brave q limit env = .ok r → r ≠ [] →
      search_web q limit language country env = (r, [.ddg, .brave])) ∧
    (∀ r, backendFailed (search_duckduckgo q limit env) = true →
      backendFailed (search_brave q limit env) = true →
      search_google q limit env = .ok r → r ≠ [] →
      search_web q limit language country env = (r, [.ddg, .brave, .google])) := by
  refine ⟨?_, ?_, ?_⟩
  · intro r hd hr
    unfold search_web
    rw [hd]
    dsimp only
    rw [if_neg (fun h => hr (List.isEmpty_iff.1 h))]
  · intro r hdf hb hr
    rw [search_web_ddg_failed q limit language country env hdf]
    rw [searchWebBrave_ok [] [.ddg] hb hr]
    rfl
  · intro r hdf hbf hg hr
    rw [search_web_ddg_failed q limit language country env hdf]
    rw [searchWebBrave_failed hbf]
    unfold searchWebGoogle
    rw [hg]
    rfl

/-- C1 witness: a concrete environment where DuckDuckGo parses one result;
the orchestrator returns it and the trace shows neither Brave nor Google
was invoked. -/
theorem search_web_priority_short_circuit_witness :
    search_web "lean" 3 none none envDdgOk = ([resW], [.ddg]) :=
  (search_web_priority_short_circuit "lean" 3 none none envDdgOk).1 [resW] rfl (by decide)

/-- C2: a backend whose fetch raises or whose parse is empty makes the
orchestrator proceed to the next backend (its invocation appears in the
trace); no per-backend exception escapes — `search_web` returns a plain
list for every environment — and when every backend fails the orchestrator
returns `[]` and `/search` responds with HTTP 404, not 500. -/
theorem search_web_failure_isolation (q : String) (k : Nat)
    (language country : Option String) (mr : Option Nat) (budget : Nat)
    (env : SearchEnv) (penv : PageEnv) (uuid : String) :
    (backendFailed (search_duckduckgo q (effectiveLimit k mr) env) = true →
      BackendName.brave ∈ (search_web q (effectiveLimit k mr) language country env).2) ∧
    (backendFailed (search_duckduckgo q (effectiveLimit k mr) env) = true →
      backendFailed (search_brave q (effectiveLimit k mr) env) = true →
      BackendName.google ∈ (search_web q (effectiveLimit k mr) language country env).2) ∧
    (backendFailed (search_duckduckgo q (effectiveLimit k mr) env) = true →
      backendFailed (search_brave q (effectiveLimit k mr) env) = true →
      backendFailed (search_google q (effectiveLimit k mr) env) = true →
      search_web q (effectiveLimit k mr) language country env = ([], [.ddg, .brave, .google]) ∧
      search_endpoint q k language country mr budget env penv uuid =
        .httpError 404 ("No search results found for query: " ++ q ++ ". Try a different query.")) := by
  refine ⟨?_, ?_, ?_⟩
  · intro hdf
    rw [search_web_ddg_failed q (effectiveLimit k mr) language country env hdf]
    obtain ⟨tl, htl⟩ := searchWebBrave_snd q (effectiveLimit k mr) env [] [.ddg]
    rw [htl]
    simp
  · intro hdf hbf
    rw [search_web_ddg_failed q (effectiveLimit k mr) language country env hdf,
      searchWebBrave_failed hbf, searchWebGoogle_snd]
    simp
  · intro hdf hbf hgf
    have hsw : search_web q (effectiveLimit k mr) language country env
        = ([], [.ddg, .brave, .google]) := by
      rw [search_web_ddg_failed q (effectiveLimit k mr) language country env hdf,
        searchWebBrave_failed hbf]
      unfold searchWebGoogle
      cases hg : search_google q (effectiveLimit k mr) env with
      | error e => rfl
      | ok r =>
        rw [hg] at hgf
        simp only [backendFailed] at hgf
        rw [List.isEmpty_iff.1 hgf]
        rfl
    refine ⟨hsw, ?_⟩
    unfold search_endpoint
    dsimp only
    rw [hsw]
    simp

/-- C2 witness: all three backends fail (two exceptions, one empty parse);
the orchestrator returns `[]` after trying all three and the endpoint
answers 404. -/
theorem search_web_failure_isolation_witness :
    search_web "lean" 2 none none envAllFail = ([], [.ddg, .brave, .google]) ∧
    search_endpoint "lean" 2 none none none 4000 envAllFail penvDown "req-0" =
      .httpError 404 ("No search results found for query: " ++ "lean" ++ ". Try a different query.") :=
  (search_web_failure_isolation "lean" 2 none none none 4000 envAllFail penvDown "req-0").2.2
    (by decide) (by decide) (by decide)

/-- C4: enrichment preserves the length and order of the result list,
never changes `url`, `title`, `date` or `last_updated`, and modifies only
`snippet`: it is replaced exactly when `fetch_and_extract` succeeds on the
result's URL and left untouched when extraction yields `none`. -/
theorem enrichment_frame (budget : Nat) (penv : PageEnv)
    (results : List SearchResult) (hb : 1 ≤ budget) :
    (enrichResults budget penv results).length = results.length ∧
    List.Forall₂ (enrichFrame budget penv) results (enrichResults budget penv results) := by
  constructor
  · simp [enrichResults]
  · unfold enrichResults
    apply forall₂_map_self
    intro item _
    obtain ⟨hu, ht, hd, hl⟩ := enrichItem_fields budget penv item
    exact ⟨hu, ht, hd, hl,
      fun t hft => enrichItem_snippet_some hb hft,
      fun hfn => enrichItem_snippet_none hfn⟩

/-- C4 witness: the frame property at a concrete result list and a page
environment where every extraction fails (the snippet is kept). -/
theorem enrichment_frame_witness :
    (enrichResults 4000 penvDown [resW]).length = [resW].length ∧
    List.Forall₂ (enrichFrame 4000 penvDown) [resW] (enrichResults 4000 penvDown [resW]) :=
  enrichment_frame 4000 penvDown [resW] (by decide)

/-- C5: a successful `fetch_and_extract` returns text of length at most the
configured character budget, and consequently every snippet the enrichment
pipeline substitutes into the final response has length at most the
budget. -/
theorem extraction_respects_budget (budget : Nat) (penv : PageEnv) :
    (∀ url t, fetch_and_extract budget penv url = some t → t.length ≤ budget) ∧
    (∀ results, List.Forall₂
      (fun orig new => new.snippet = orig.snippet ∨
        ∃ t, new.snippet = some t ∧ t.length ≤ budget)
      results (enrichResults budget penv results)) := by
  constructor
  · intro url t h
    exact fetch_and_extract_length h
  · intro results
    apply forall₂_map_self
    intro item _
    unfold enrichItem
    cases hf : fetch_and_extract budget penv item.url with
    | none => exact Or.inl rfl
    | some t =>
      dsimp only
      by_cases ht : t = ""
      · rw [if_pos ht]
        exact Or.inl rfl
      · rw [if_neg ht]
        exact Or.inr ⟨t, rfl, fetch_and_extract_length hf⟩

/-- C5 witness: with budget 5 and a page that extracts to "hello world",
the extracted snippet is the 5-character truncation. -/
theorem extraction_respects_budget_witness :
    ("hello" : String).length ≤ 5 :=
  (extraction_respects_budget 5 penvHello).1 "https://example.org/" "hello" (by decide)

/-- C9: `/search` is deterministic: against a fixed environment, two
invocations with the same `q` and effective limit produce the same outcome
up to the opaque request id, and the results never depend on the accepted
but unused `language` and `country` parameters. -/
theorem endpoint_deterministic_modulo_id (q : String) (k : Nat)
    (mr : Option Nat) (budget : Nat) (env : SearchEnv) (penv : PageEnv)
    (lang₁ country₁ lang₂ country₂ : Option String) (uuid₁ uuid₂ : String) :
    search_web q (effectiveLimit k mr) lang₁ country₁ env =
      search_web q (effectiveLimit k mr) lang₂ country₂ env ∧
    outcomeResults (search_endpoint q k lang₁ country₁ mr budget env penv uuid₁) =
      outcomeResults (search_endpoint q k lang₂ country₂ mr budget env penv uuid₂) := by
  constructor
  · rfl
  · unfold search_endpoint
    dsimp only
    rw [show search_web q (effectiveLimit k mr) lang₂ country₂ env
        = search_web q (effectiveLimit k mr) lang₁ country₁ env from rfl]
    split <;> rfl

/-- C10: `fetch_and_extract` is total and never produces the empty string:
fetch errors, extraction errors, `None` extractions and empty extractions
all yield `none`; every `some` result is non-empty (for a positive budget);
and the enrichment pipeline never replaces a snippet with an empty
string (for any budget). -/
theorem fetch_and_extract_safety (budget : Nat) (penv : PageEnv) (url : String) :
    (∀ e, penv.page url = .error e → fetch_and_extract budget penv url = none) ∧
    (∀ body, penv.page url = .ok body →
      (∀ e, penv.extract body url = .error e → fetch_and_extract budget penv url = none) ∧
      (penv.extract body url = .ok none → fetch_and_extract budget penv url = none) ∧
      (penv.extract body url = .ok (some "") → fetch_and_extract budget penv url = none)) ∧
    (1 ≤ budget → ∀ t, fetch_and_extract budget penv url = some t → t ≠ "") ∧
    (∀ results, List.Forall₂
      (fun orig new => new.snippet = orig.snippet ∨ ∃ t, new.snippet = some t ∧ t ≠ "")
      results (enrichResults budget penv results)) := by
  refine ⟨?_, ?_, ?_, ?_⟩
  · intro e he
    unfold fetch_and_extract
    rw [he]
  · intro body hbody
    refine ⟨?_, ?_, ?_⟩
    · intro e he
      unfold fetch_and_extract
      rw [hbody]
      dsimp only
      rw [he]
    · intro he
      unfold fetch_and_extract
      rw [hbody]
      dsimp only
      rw [he]
    · intro he
      unfold fetch_and_extract
      rw [hbody]
      dsimp only
      rw [he]
      dsimp only
      rw [if_pos rfl]
  · intro hb t h
    exact fetch_and_extract_ne_empty hb h
  · intro results
    apply forall₂_map_self
    intro item _
    unfold enrichItem
    cases hf : fetch_and_extract budget penv item.url with
    | none => exact Or.inl rfl
    | some t =>
      dsimp only
      by_cases ht : t = ""
      · rw [if_pos ht]
        exact Or.inl rfl
      · rw [if_neg ht]
        exact Or.inr ⟨t, rfl, ht⟩

/-- C10 witness: a failing page fetch yields `none`, so the snippet of a
concrete result survives enrichment unchanged. -/
theorem fetch_and_extract_safety_witness :
    fetch_and_extract 4000 penvDown "https://example.org/" = none :=
  (fetch_and_extract_safety 4000 penvDown "https://example.org/").1 "offline" rfl

/-- C7: a DuckDuckGo result block lacking a title element is skipped on its
own, without affecting the rest of the parse; in particular, a page of
three otherwise well-formed blocks whose second block lacks a title parses
to exactly the results of blocks 1 and 3, in order. -/
theorem ddg_missing_title_skips_block (pre post : List DDGBlock) (blk : DDGBlock)
    (limit : Nat) (h : blk.title_elem = none) :
    duckduckgoParse (pre ++ blk :: post) limit = duckduckgoParse (pre ++ post) limit ∧
    duckduckgoParse [ddgB1, ddgB2, ddgB3] 10 =
      [{ title := "First", url := "https://one.example/", snippet := some "s1" },
       { title := "Third", url := "https://three.example/", snippet := some "" }] := by
  constructor
  · unfold duckduckgoParse
    exact collectLoop_skip limit ddgCandidate (by simp [ddgCandidate, h]) pre post []
  · decide

/-- C7 witness: the skip property applied to the concrete three-block page
whose middle block has no title element. -/
theorem ddg_missing_title_skips_block_witness :
    duckduckgoParse ([ddgB1] ++ ddgB2 :: [ddgB3]) 10
      = duckduckgoParse ([ddgB1] ++ [ddgB3]) 10 :=
  (ddg_missing_title_skips_block [ddgB1] [ddgB3] ddgB2 10 rfl).1

/-- C8 counterexample: in a Brave result container whose
`snippet-description` element is present but empty and whose
`snippet-content` element is present and non-empty, the emitted snippet is
the empty description text, not the content text as the claim requires. -/
theorem brave_snippet_counterexample :
    (braveParse [braveCexBlock] 3).map (fun r => r.snippet) = [some ""] ∧
    ¬ ((braveParse [braveCexBlock] 3).map (fun r => r.snippet) = [some "Result text"]) := by
  decide

/-- C8 amended: `select_one(".snippet-description, .snippet-content")`
returns the first matching element in document order, so the emitted
snippet is the first matching element's text — even when that text is
empty and a later element of the other class has non-empty text. -/
theorem brave_snippet_first_match (title href t₁ t₂ : String) (limit : Nat)
    (hh : pyStartsWith href "http" = true) :
    braveParse [{ anchor := some { text := title, href := some href },
                  snippetElems := [{ classes := ["snippet-description"], text := t₁ },
                                   { classes := ["snippet-content"], text := t₂ }] }] limit
      = [{ title := title, url := href, snippet := some t₁ }] := by
  have hc : braveCandidate
      { anchor := some { text := title, href := some href },
        snippetElems := [{ classes := ["snippet-description"], text := t₁ },
                         { classes := ["snippet-content"], text := t₂ }] }
      = some { title := title, url := href, snippet := some t₁ } := by
    unfold braveCandidate
    dsimp only
    rw [show selectSnippet "snippet-description" "snippet-content"
        [{ classes := ["snippet-description"], text := t₁ },
         { classes := ["snippet-content"], text := t₂ }]
        = some { classes := ["snippet-description"], text := t₁ } from rfl]
    dsimp only [Option.getD]
    have hcond : ¬(pyStartsWith href "http" = false) := by
      rw [hh]
      exact fun hx => nomatch hx
    rw [if_neg hcond]
  unfold braveParse
  rw [collectLoop_cons_some limit hc]
  split
  · simp
  · simp [collectLoop]

/-- C8 amended witness: the counterexample block, where the emitted snippet
is the empty first-class text. -/
theorem brave_snippet_first_match_witness :
    braveParse [braveCexBlock] 3
      = [{ title := "Brave Title", url := "https://brave.example/", snippet := some "" }] :=
  brave_snippet_first_match "Brave Title" "https://brave.example/" "" "Result text" 3 (by decide)

/-- C6 counterexample: the href `https://example.com/xuddg=target` contains
the marker `uddg=` but its query string has no `uddg` parameter.  The claim
says the raw href (which is absolute) is used as-is, so the block should
parse to one result carrying that href; the code instead unwraps to `""`
and drops the candidate, parsing to `[]`. -/
theorem uddg_param_absent_counterexample :
    strContains "https://example.com/xuddg=target" "uddg=" = true ∧
    uddgUnwrap "https://example.com/xuddg=target" = "" ∧
    duckduckgoParse [ddgCexBlock] 3 = [] ∧
    ¬ ((duckduckgoParse [ddgCexBlock] 3).map (fun r => r.url)
        = ["https://example.com/xuddg=target"]) := by
  decide

/-- C6 amended: a wrapper href embedding the target as its `uddg` query
parameter unwraps to the embedded target (and the parser emits the target
as the url); an href that does not contain the substring `uddg=` is used
as-is.  (An href containing `uddg=` without an actual `uddg` query
parameter unwraps to `""` and is dropped, per the counterexample.) -/
theorem uddg_unwrap_amended :
    (∀ pre target : String,
      (∀ c ∈ pre.data, c ≠ '?' ∧ c ≠ '#') →
      (∀ c ∈ target.data, c ≠ '&' ∧ c ≠ '#' ∧ c ≠ '%' ∧ c ≠ '+') →
      target ≠ "" →
      uddgUnwrap (pre ++ "?uddg=" ++ target) = target) ∧
    (∀ href : String, strContains href "uddg=" = false → uddgUnwrap href = href) ∧
    (∀ titleText snippetText pre target : String,
      (∀ c ∈ pre.data, c ≠ '?' ∧ c ≠ '#') →
      (∀ c ∈ target.data, c ≠ '&' ∧ c ≠ '#' ∧ c ≠ '%' ∧ c ≠ '+') →
      pyStartsWith target "http" = true →
      duckduckgoParse
        [{ title_elem := some { text := titleText, href := some (pre ++ "?uddg=" ++ target) },
           snippet_elem := some { text := snippetText } }] 1
        = [{ title := titleText, url := target, snippet := some snippetText }]) := by
  refine ⟨fun pre target hpre htar hne => uddg_unwrap_target hpre htar hne, ?_, ?_⟩
  · intro href h
    have hcond : ¬(href ≠ "" ∧ strContains href "uddg=" = true) := by
      rintro ⟨-, h2⟩
      rw [h] at h2
      exact nomatch h2
    unfold uddgUnwrap
    rw [if_neg hcond]
  · intro titleText snippetText pre target hpre htar hstart
    have hne : target ≠ "" := pyStartsWith_http_ne_empty hstart
    have hurl := uddg_unwrap_target hpre htar hne
    have hc : ddgCandidate
        { title_elem := some { text := titleText, href := some (pre ++ "?uddg=" ++ target) },
          snippet_elem := some { text := snippetText } }
        = some { title := titleText, url := target, snippet := some snippetText } := by
      unfold ddgCandidate
      dsimp only [Option.getD]
      rw [hurl]
      have hcond : ¬(target = "" ∨ pyStartsWith target "http" = false) := by
        rintro (h1 | h2)
        · exact hne h1
        · rw [hstart] at h2
          exact nomatch h2
      rw [if_neg hcond]
    unfold duckduckgoParse
    rw [collectLoop_cons_some 1 hc]
    rw [if_pos (by simp)]
    simp

/-- C6 amended witness: the canonical DuckDuckGo wrapper href unwraps to
the embedded target, and an href without the marker is kept as-is. -/
theorem uddg_unwrap_amended_witness :
    uddgUnwrap ("https://duckduckgo.com/l/" ++ "?uddg=" ++ "https://example.org/page")
      = "https://example.org/page" ∧
    uddgUnwrap "https://plain.example.org/a" = "https://plain.example.org/a" :=
  ⟨uddg_unwrap_amended.1 "https://duckduckgo.com/l/" "https://example.org/page"
      (by decide) (by decide) (by decide),
   uddg_unwrap_amended.2.1 "https://plain.example.org/a" (by decide)⟩

/-- C3: for a validated non-empty query, if at least one backend's attempt
yields a non-empty parse then `/search` returns between 1 and the effective
limit results, each with a non-empty URL starting with `http` (the source's
absoluteness check); candidates whose URL is empty or lacks that prefix are
dropped by every parser and never emitted. -/
theorem search_results_bounded_absolute (q : String) (k : Nat)
    (language country : Option String) (mr : Option Nat) (budget : Nat)
    (env : SearchEnv) (penv : PageEnv) (uuid : String)
    (hq : 2 ≤ q.length) (hk : 1 ≤ k)
    (hone : backendFailed (search_duckduckgo q (effectiveLimit k mr) env) = false ∨
            backendFailed (search_brave q (effectiveLimit k mr) env) = false ∨
            backendFailed (search_google q (effectiveLimit k mr) env) = false) :
    (∀ blocks lim, ∀ r ∈ duckduckgoParse blocks lim,
        r.url ≠ "" ∧ pyStartsWith r.url "http" = true) ∧
    (∀ blocks lim, ∀ r ∈ braveParse blocks lim,
        r.url ≠ "" ∧ pyStartsWith r.url "http" = true) ∧
    (∀ blocks lim, ∀ r ∈ googleParse blocks lim,
        r.url ≠ "" ∧ pyStartsWith r.url "http" = true) ∧
    (∃ resp, search_endpoint q k language country mr budget env penv uuid = .ok resp ∧
      1 ≤ resp.results.length ∧ resp.results.length ≤ effectiveLimit k mr ∧
      ∀ r ∈ resp.results, r.url ≠ "" ∧ pyStartsWith r.url "http" = true) := by
  have hddg : ∀ blocks lim, ∀ r ∈ duckduckgoParse blocks lim,
      r.url ≠ "" ∧ pyStartsWith r.url "http" = true := by
    intro blocks lim r hr
    exact collectLoop_mem lim ddgCandidate _
      (fun b s hs => ddgCandidate_url hs) blocks [] (by simp) r hr
  have hbrave : ∀ blocks lim, ∀ r ∈ braveParse blocks lim,
      r.url ≠ "" ∧ pyStartsWith r.url "http" = true := by
    intro blocks lim r hr
    exact collectLoop_mem lim braveCandidate _
      (fun b s hs => braveCandidate_url hs) blocks [] (by simp) r hr
  have hgoogle : ∀ blocks lim, ∀ r ∈ googleParse blocks lim,
      r.url ≠ "" ∧ pyStartsWith r.url "http" = true := by
    intro blocks lim r hr
    exact collectLoop_mem lim googleCandidate _
      (fun b s hs => googleCandidate_url hs) blocks [] (by simp) r hr
  have hlim : 1 ≤ effectiveLimit k mr := by
    unfold effectiveLimit
    cases mr with
    | none => exact hk
    | some m =>
      dsimp only
      by_cases hm : m = 0
      · rw [if_pos hm]
        exact hk
      · rw [if_neg hm]
        omega
  have hne : (search_web q (effectiveLimit k mr) language country env).1 ≠ [] := by
    intro h0
    have hall := (search_web_nil_iff q (effectiveLimit k mr) language country env).1 h0
    rcases hone with h | h | h <;> simp_all
  have hsrc := search_web_fst q (effectiveLimit k mr) language country env
  have hlen : (search_web q (effectiveLimit k mr) language country env).1.length
      ≤ effectiveLimit k mr := by
    rcases hsrc with h | ⟨blocks, -, h⟩ | ⟨blocks, -, h⟩ | ⟨blocks, -, h⟩
    · exact absurd h hne
    · rw [h]
      unfold duckduckgoParse
      exact collectLoop_length _ _ blocks [] (by simpa using hlim)
    · rw [h]
      unfold braveParse
      exact collectLoop_length _ _ blocks [] (by simpa using hlim)
    · rw [h]
      unfold googleParse
      exact collectLoop_length _ _ blocks [] (by simpa using hlim)
  have hurls : ∀ r ∈ (search_web q (effectiveLimit k mr) language country env).1,
      r.url ≠ "" ∧ pyStartsWith r.url "http" = true := by
    rcases hsrc with h | ⟨blocks, -, h⟩ | ⟨blocks, -, h⟩ | ⟨blocks, -, h⟩
    · exact absurd h hne
    · rw [h]
      exact hddg blocks (effectiveLimit k mr)
    · rw [h]
      exact hbrave blocks (effectiveLimit k mr)
    · rw [h]
      exact hgoogle blocks (effectiveLimit k mr)
  refine ⟨hddg, hbrave, hgoogle, ?_⟩
  unfold search_endpoint
  dsimp only
  rw [if_neg (fun hemp => hne (List.isEmpty_iff.1 hemp))]
  refine ⟨_, rfl, ?_, ?_, ?_⟩
  · unfold enrichResults
    rw [List.length_map]
    have := List.length_pos.2 hne
    omega
  · unfold enrichResults
    rw [List.length_map]
    exact hlen
  · intro r hr
    unfold enrichResults at hr
    rcases List.mem_map.1 hr with ⟨item, hitem, rfl⟩
    obtain ⟨hu, -, -, -⟩ := enrichItem_fields budget penv item
    rw [hu]
    exact hurls item hitem

/-- C3 witness: a concrete environment where DuckDuckGo parses one result;
the endpoint returns exactly one result whose URL starts with `http`. -/
theorem search_results_bounded_absolute_witness :
    ∃ resp, search_endpoint "lean" 2 none none none 4000 envDdgOk penvDown "req-1"
        = .ok resp ∧
      1 ≤ resp.results.length ∧ resp.results.length ≤ effectiveLimit 2 none ∧
      ∀ r ∈ resp.results, r.url ≠ "" ∧ pyStartsWith r.url "http" = true :=
  (search_results_bounded_absolute "lean" 2 none none none 4000 envDdgOk penvDown "req-1"
    (by decide) (by decide) (Or.inl (by decide))).2.2.2

end FreeSearch
